import Mathlib

/-!
Verification of the command-invocation engine of `pbs.py` (v0.82).

The definitions below are a shallow embedding of the Python source:
pure fragments become Lean functions, Python's mutable module state
(the exception-class cache, the prepend stack) is passed explicitly,
and fallible operations return `Option` / explicit result codes.
Python library helpers used by the source (`shlex.split`, `str.join`,
`repr`, `str.replace` with a one-character pattern) are modelled by
executable Lean functions mirroring their documented behaviour on the
text values this program feeds them.
-/

namespace Pbs

/-! ## Python values

Call arguments and keyword-argument values in `pbs.py` are ordinary
Python objects; the engine only distinguishes `True` (identity test
`v is True`), and otherwise stringifies with `str` or `repr`. -/

inductive PyVal where
  | vnone
  | vbool (b : Bool)
  | vint (n : Int)
  | vstr (s : String)
deriving DecidableEq, Repr

/-- A positional argument to `Command.__call__` / `Command.bake`: either a
scalar or a list/tuple (flattened one level by `_compile_args`). -/
inductive PosArg where
  | scalar (v : PyVal)
  | seqArg (l : List PyVal)
deriving DecidableEq, Repr

/-- Python `str(v)` on the values above. -/
def pyStr : PyVal → String
  | .vnone => "None"
  | .vbool true => "True"
  | .vbool false => "False"
  | .vint n => toString n
  | .vstr s => s

/-- Escaping used by Python `repr` on a string: the chosen quote character
and the backslash are escaped.  (Non-printable-character escapes are not
modelled; the program text never feeds them through this path.) -/
def pyQuoteEscape (q : Char) (s : String) : String :=
  String.mk (List.flatten (s.toList.map
    (fun c => if c = '\\' || c = q then ['\\', c] else [c])))

/-- Python `repr` of a string: single-quoted, unless the string contains a
single quote and no double quote, in which case it is double-quoted. -/
def pyReprStr (s : String) : String :=
  if s.toList.contains '\'' && !(s.toList.contains '"') then
    "\"" ++ pyQuoteEscape '"' s ++ "\""
  else
    "'" ++ pyQuoteEscape '\'' s ++ "'"

/-- Python `repr(v)`. -/
def pyRepr : PyVal → String
  | .vnone => "None"
  | .vbool true => "True"
  | .vbool false => "False"
  | .vint n => toString n
  | .vstr s => pyReprStr s

/-- Python `sep.join(l)`. -/
def strJoin (sep : String) : List String → String
  | [] => ""
  | [a] => a
  | a :: b :: rest => a ++ sep ++ strJoin sep (b :: rest)

/-! ## `shlex.split`

`_compile_args` ends with `shlex.split(" ".join(processed_args))`.
`shlex.split` uses POSIX mode with whitespace-only token splitting and
no comment characters: whitespace separates tokens, single quotes group
literally, double quotes group with `\\` escaping only `\\` and `"`,
and a bare backslash escapes the next character.  An unterminated quote
or a trailing escape raises `ValueError`, modelled as `none`. -/

def isShlexWS (c : Char) : Bool :=
  c == ' ' || c == '\t' || c == '\r' || c == '\n'

/-- A character with no special meaning to the splitter. -/
def ordinaryChar (c : Char) : Bool :=
  !(isShlexWS c) && !(c == '\'') && !(c == '"') && !(c == '\\')

/-- Lexer mode: between/inside a word, after a bare backslash, inside
single quotes, inside double quotes, after a backslash in double quotes. -/
inductive ShMode where
  | norm
  | esc
  | singleQ
  | doubleQ
  | escDouble
deriving DecidableEq, Repr

/-- The splitter's state machine.  `cur = none` means no token has been
started; `cur = some t` is the token accumulated so far. -/
def shlexAux : ShMode → Option (List Char) → List Char → Option (List String)
  | .norm, cur, [] =>
    match cur with
    | none => some []
    | some t => some [String.mk t]
  | .norm, cur, c :: rest =>
    if isShlexWS c then
      match cur with
      | none => shlexAux .norm none rest
      | some t => (shlexAux .norm none rest).map (String.mk t :: ·)
    else if c == '\'' then shlexAux .singleQ (some (cur.getD [])) rest
    else if c == '"' then shlexAux .doubleQ (some (cur.getD [])) rest
    else if c == '\\' then shlexAux .esc (some (cur.getD [])) rest
    else shlexAux .norm (some (cur.getD [] ++ [c])) rest
  | .esc, _, [] => none
  | .esc, cur, c :: rest => shlexAux .norm (some (cur.getD [] ++ [c])) rest
  | .singleQ, _, [] => none
  | .singleQ, cur, c :: rest =>
    if c == '\'' then shlexAux .norm cur rest
    else shlexAux .singleQ (some (cur.getD [] ++ [c])) rest
  | .doubleQ, _, [] => none
  | .doubleQ, cur, c :: rest =>
    if c == '"' then shlexAux .norm cur rest
    else if c == '\\' then shlexAux .escDouble cur rest
    else shlexAux .doubleQ (some (cur.getD [] ++ [c])) rest
  | .escDouble, _, [] => none
  | .escDouble, cur, c :: rest =>
    if c == '"' || c == '\\' then shlexAux .doubleQ (some (cur.getD [] ++ [c])) rest
    else shlexAux .doubleQ (some (cur.getD [] ++ ['\\', c])) rest

/-- `shlex.split(s)` (POSIX mode, whitespace split, comments off). -/
def shlexSplit (s : String) : Option (List String) :=
  shlexAux .norm none s.toList

/-! ## `Command._compile_args` (pbs.py lines 451-478) -/

/-- Positional-argument aggregation: sequences are flattened one level,
every scalar is passed through `str`. -/
def posTokens : List PosArg → List String
  | [] => []
  | .scalar v :: rest => pyStr v :: posTokens rest
  | .seqArg l :: rest => l.map pyStr ++ posTokens rest

/-- Python `k.replace("_", "-")` (one-character pattern). -/
def replaceUnderscores (s : String) : String :=
  String.mk (s.toList.map (fun c => if c = '_' then '-' else c))

/-- One keyword argument compiled to its (pre-resplit) text:
single-character keys become short flags, longer keys become long flags
with underscores rewritten to hyphens; `v is True` selects the bare-flag
form, any other value is rendered with `repr`. -/
def kwToken (k : String) (v : PyVal) : String :=
  if k.length = 1 then
    match v with
    | .vbool true => "-" ++ k
    | _ => "-" ++ k ++ " " ++ pyRepr v
  else
    let k2 := replaceUnderscores k
    match v with
    | .vbool true => "--" ++ k2
    | _ => "--" ++ k2 ++ "=" ++ pyRepr v

/-- `Command._compile_args(args, kwargs)`: aggregate positionals, then
keyword arguments (in dict order), join on spaces and re-split with
`shlex.split`.  `none` models the `ValueError` shlex raises on
malformed quoting. -/
def compile_args (args : List PosArg) (kwargs : List (String × PyVal)) :
    Option (List String) :=
  let processed := posTokens args ++ kwargs.map (fun p => kwToken p.1 p.2)
  shlexSplit (strJoin " " processed)

/-! ## `Command` (pbs.py lines 390-603)

`__getattribute__`-based subcommand baking and the process spawn itself
are not needed by the claims; the argv construction, baking and the
prepend ("with" context) stack are embedded faithfully. -/

/-- The relevant state of a `Command` object: `_path`, `_partial`,
`_partial_baked_args`, `_partial_call_args`.  (The underscore-free field
names stand for the source's underscore-prefixed attributes.) -/
structure Command where
  path : String
  isBaked : Bool
  baked_args : List String
  baked_call_args : List (String × PyVal)
deriving DecidableEq, Repr

/-- `Command.__init__(path)`. -/
def Command.fresh (path : String) : Command :=
  ⟨path, false, [], []⟩

/-- The class attribute `Command.call_args` with its defaults, in the
source's insertion order. -/
def call_arg_defaults : List (String × PyVal) :=
  [("fg", .vbool false), ("bg", .vbool false), ("with", .vbool false),
   ("out", .vnone), ("err", .vnone), ("err_to_out", .vnone),
   ("bufsize", .vint 1)]

/-- Association-list lookup standing for a Python dict read. -/
def lookupKw (k : String) : List (String × PyVal) → Option PyVal
  | [] => none
  | p :: rest => if p.1 = k then some p.2 else lookupKw k rest

/-- `del kwargs[key]` on the association list. -/
def removeKw (k : String) (l : List (String × PyVal)) :
    List (String × PyVal) :=
  l.filter (fun p => p.1 ≠ k)

/-- `Command._extract_call_args(kwargs, to_override)`: for each special
parameter take `kwargs["_" + parg]` (consuming it) if present, else the
`to_override` entry if present, else the default; returns the resolved
call args and the remaining kwargs. -/
def extract_call_args (kwargs to_override : List (String × PyVal)) :
    List (String × PyVal) × List (String × PyVal) :=
  call_arg_defaults.foldl
    (fun acc pd =>
      match lookupKw ("_" ++ pd.1) acc.2 with
      | some v => (acc.1 ++ [(pd.1, v)], removeKw ("_" ++ pd.1) acc.2)
      | none =>
        match lookupKw pd.1 to_override with
        | some v => (acc.1 ++ [(pd.1, v)], acc.2)
        | none => (acc.1 ++ [(pd.1, pd.2)], acc.2))
    ([], kwargs)

/-- `Command.bake` (lines 481-488): a fresh `Command` on the same path,
marked baked, whose baked call args come from the bake call's kwargs
(with an empty `to_override`) and whose baked args are the compiled bake
arguments.  `none` models the shlex `ValueError`. -/
def Command.bake (self : Command) (args : List PosArg)
    (kwargs : List (String × PyVal)) : Option Command :=
  let ex := extract_call_args kwargs []
  (compile_args args ex.2).map
    (fun processed => ⟨self.path, true, processed, ex.1⟩)

/-- The argv assembled by `Command.__call__` (lines 509-565) for plain
(non-`RunningCommand`) arguments: active prepend-stack entries in push
order, the command's path, its baked args, then the compiled call-time
args.  This is the list handed to `subprocess.Popen` (globbing is
disabled in the source). -/
def Command.call (stack : List (List String)) (self : Command)
    (args : List PosArg) (kwargs : List (String × PyVal)) :
    Option (List String) :=
  let cmd := stack.flatten ++ [self.path]
  let ex := extract_call_args kwargs self.baked_call_args
  (compile_args args ex.2).map
    (fun processed => cmd ++ self.baked_args ++ processed)

/-- `Command.__enter__` (lines 502-503): push `[self._path]` on the
process-wide prepend stack. -/
def Command.enter (stack : List (List String)) (self : Command) :
    List (List String) :=
  stack ++ [[self.path]]

/-- `Command.__exit__` (lines 505-506): pop the prepend stack. -/
def Command.exitCtx (stack : List (List String)) : List (List String) :=
  stack.dropLast

/-! ## `get_rc_exc` and the exception-class cache (pbs.py lines 81-91)

`type(name, (ErrorReturnCode,), {})` creates a fresh class object on
every call; classes are identified here by a creation serial number.
The module-level dict `rc_exc_cache` is keyed by whatever the source
indexes it with — the lookup uses the `int` return code, the insert uses
the `str` class name — so keys are modelled as Python values. -/

inductive PyKey where
  | intKey (n : Int)
  | strKey (s : String)
deriving DecidableEq, Repr

/-- A dynamically created `ErrorReturnCode_<rc>` class: `serial` is the
identity of the class object, `excRc` the code in its name. -/
structure RcExcClass where
  serial : Nat
  excRc : Int
deriving DecidableEq, Repr

/-- The module-level mutable state consumed by `get_rc_exc`:
the `rc_exc_cache` dict and a supply of fresh class identities. -/
structure RcState where
  cache : List (PyKey × RcExcClass)
  nextSerial : Nat
deriving DecidableEq, Repr

def cacheLookup (k : PyKey) : List (PyKey × RcExcClass) → Option RcExcClass
  | [] => none
  | p :: rest => if p.1 = k then some p.2 else cacheLookup k rest

/-- `get_rc_exc(rc)`: return the cached class for `rc` if present,
otherwise create `ErrorReturnCode_<rc>` and store it in the cache —
under the *name* string, exactly as the source does. -/
def get_rc_exc (rc : Int) (st : RcState) : RcExcClass × RcState :=
  match cacheLookup (.intKey rc) st.cache with
  | some c => (c, st)
  | none =>
    let name := "ErrorReturnCode_" ++ toString rc
    let exc : RcExcClass := ⟨st.nextSerial, rc⟩
    (exc, ⟨st.cache ++ [(.strKey name, exc)], st.nextSerial + 1⟩)

/-- The initial module state: empty cache. -/
def rcState0 : RcState := ⟨[], 0⟩

/-- Every key the program ever inserts into `rc_exc_cache` is a string
(the class name); states reachable from `rcState0` satisfy this. -/
def strKeyedOnly (st : RcState) : Bool :=
  st.cache.all (fun p => match p.1 with | .strKey _ => true | .intKey _ => false)

/-! ## Raising `ErrorReturnCode` (pbs.py lines 55-77, 215-217, 357-359)

`ErrorReturnCode.__init__(self, full_cmd, stdout, stderr)` requires
three arguments; calling the class with a different number of arguments
is a Python `TypeError`.  The data the exception carries: -/

structure ExcData where
  full_cmd : String
  stdout : String
  stderr : String
deriving DecidableEq, Repr

/-- Calling an `ErrorReturnCode` subclass with an argument list: arity 3
constructs the exception, anything else is a `TypeError`. -/
def mkErrorReturnCode : List String → Option ExcData
  | [c, o, e] => some ⟨c, o, e⟩
  | _ => none

/-- Outcome of the exit-status check paths. -/
inductive RaiseResult where
  /-- no exception: control returns normally -/
  | ret
  /-- the classified failure that was raised -/
  | raised (cls : RcExcClass) (e : ExcData)
  /-- a `TypeError` from calling the class with the wrong arity -/
  | typeError
deriving DecidableEq, Repr

/-- `raise get_rc_exc(rc)(*args)`. -/
def raiseRcExc (st : RcState) (rc : Int) (args : List String) : RaiseResult :=
  match mkErrorReturnCode args with
  | some e => .raised (get_rc_exc rc st).1 e
  | none => .typeError

/-- The exit check at the end of `RunningCommand.__init__` (lines
215-217), reached for non-background, non-with invocations without
collector threads: `rc = self.process.wait()`; `if rc > 0: raise
get_rc_exc(rc)(self.command_ran, self.stdout, self.stderr)`. -/
def init_exit_check (st : RcState) (rc : Int)
    (command_ran stdout stderr : String) : RaiseResult :=
  if rc > 0 then raiseRcExc st rc [command_ran, stdout, stderr] else .ret

/-- The exit check in `RunningCommand.wait` (lines 357-359) for a
background invocation without collector threads: `if rc > 0: raise
get_rc_exc(rc)(self.stdout, self.stderr)` — note the two arguments. -/
def wait_exit_check (st : RcState) (rc : Int)
    (stdout stderr : String) : RaiseResult :=
  if rc > 0 then raiseRcExc st rc [stdout, stderr] else .ret

/-! ## The Python class hierarchy of the failure classes

`get_rc_exc` creates every dynamic class with bases
`(ErrorReturnCode,)`, and `ErrorReturnCode` extends `Exception`. -/

inductive PyClassRef where
  | exceptionCls
  | errorReturnCodeCls
  | dyn (c : RcExcClass)
deriving DecidableEq, Repr

/-- `issubclass` over the hierarchy above (reflexive-transitive closure
of the base-class links, unfolded per constructor). -/
def isSubclass : PyClassRef → PyClassRef → Bool
  | .exceptionCls, d => d == .exceptionCls
  | .errorReturnCodeCls, d => d == .errorReturnCodeCls || d == .exceptionCls
  | .dyn c, d => d == .dyn c || d == .errorReturnCodeCls || d == .exceptionCls

/-- An `except H:` clause catches a raised exception of class `c` iff
`c` is a subclass of `H`. -/
def catchesExc (handler raised : PyClassRef) : Bool :=
  isSubclass raised handler

/-! ## The collector-thread exit-check race (pbs.py lines 275-341)

Each collector thread, after its drain loop ends, runs (in `finally`)
`is_last_thread()` — which, evaluated from a still-running thread, is
exactly "the other collector thread is no longer alive" — and performs
the exit-status check only if it holds.  A thread's `is_alive()` turns
false only after its `run()` (including the `finally` block) returns.
Per thread this is two atomic events: the liveness probe (with the
conditional exit check) and thread termination; an execution is an
interleaving of the two threads' event sequences. -/

inductive Tid where
  | tA
  | tB
deriving DecidableEq, Repr

def Tid.other : Tid → Tid
  | .tA => .tB
  | .tB => .tA

inductive CAct where
  /-- the thread evaluates `is_last_thread()` and, if it holds, performs
  the exit-status check / classified raise -/
  | lastTest (t : Tid)
  /-- the thread's `run()` returns; `is_alive()` becomes false -/
  | terminate (t : Tid)
deriving DecidableEq, Repr

structure CollectorState where
  aliveA : Bool
  aliveB : Bool
  /-- how many times the exit-status check has been performed -/
  exitChecks : Nat
deriving DecidableEq, Repr

def aliveOf (s : CollectorState) : Tid → Bool
  | .tA => s.aliveA
  | .tB => s.aliveB

def collectorStep (s : CollectorState) : CAct → CollectorState
  | .lastTest t =>
    if aliveOf s t.other then s else { s with exitChecks := s.exitChecks + 1 }
  | .terminate .tA => { s with aliveA := false }
  | .terminate .tB => { s with aliveB := false }

def collectorRun (s : CollectorState) (l : List CAct) : CollectorState :=
  l.foldl collectorStep s

def initCollector : CollectorState := ⟨true, true, 0⟩

/-- The events of one collector thread, in program order. -/
def threadProg (t : Tid) : List CAct :=
  [.lastTest t, .terminate t]

/-- All interleavings of two event sequences (with a structural fuel
argument so the kernel can evaluate it; the fuel is always ample). -/
def interleavingsAux : Nat → List CAct → List CAct → List (List CAct)
  | 0, _, _ => []
  | _ + 1, [], ys => [ys]
  | _ + 1, x :: xs, [] => [x :: xs]
  | n + 1, x :: xs, y :: ys =>
    (interleavingsAux n xs (y :: ys)).map (x :: ·) ++
      (interleavingsAux n (x :: xs) ys).map (y :: ·)

/-- All interleavings of two event sequences. -/
def interleavings (xs ys : List CAct) : List (List CAct) :=
  interleavingsAux (xs.length + ys.length) xs ys

/-- Every possible schedule of the two collector threads' final phases. -/
def validScheds : List (List CAct) :=
  interleavings (threadProg .tA) (threadProg .tB)

/-- Position of the first occurrence of `a` in `l`. -/
def actIndex (a : CAct) : List CAct → Nat
  | [] => 0
  | b :: rest => if b = a then 0 else actIndex a rest + 1

/-- Some collector thread terminated before the other evaluated its
`is_last_thread` probe. -/
def dieBeforeOtherTest (l : List CAct) : Prop :=
  actIndex (.terminate .tA) l < actIndex (.lastTest .tB) l ∨
    actIndex (.terminate .tB) l < actIndex (.lastTest .tA) l

instance (l : List CAct) : Decidable (dieBeforeOtherTest l) := by
  unfold dieBeforeOtherTest
  infer_instance

/-! ## `RunningCommand.__unicode__` (pbs.py lines 245-248)

If a process handle exists the aggregated stdout is decoded (an empty
aggregate renders as `""`); with no process handle the method body ends
without a `return`, so Python yields `None`, modelled as `none`. -/

/-- `.decode("utf-8")`, modelled as the identity on the embedded text. -/
def utf8Decode (s : String) : String := s

def unicodeRender (hasProcess : Bool) (aggStdout : String) : Option String :=
  if hasProcess then
    if aggStdout ≠ "" then some (utf8Decode aggStdout) else some ""
  else
    none

/-! ## Splitter lemmas -/

/-- A token that shell-word-splitting passes through unchanged:
nonempty, all characters ordinary. -/
def plainTok (s : String) : Bool :=
  !s.toList.isEmpty && s.toList.all ordinaryChar

theorem string_toList_append (s t : String) :
    (s ++ t).toList = s.toList ++ t.toList := rfl

theorem string_mk_toList (s : String) : String.mk s.toList = s := rfl

theorem ordinaryChar_spec (c : Char) (h : ordinaryChar c = true) :
    isShlexWS c = false ∧ (c == '\'') = false ∧ (c == '"') = false ∧
      (c == '\\') = false := by
  unfold ordinaryChar at h
  simp only [Bool.and_eq_true, Bool.not_eq_true'] at h
  exact ⟨h.1.1.1, h.1.1.2, h.1.2, h.2⟩

theorem shlexAux_consume (t : List Char) (h : t.all ordinaryChar = true) :
    ∀ cur l : List Char,
      shlexAux .norm (some cur) (t ++ l) = shlexAux .norm (some (cur ++ t)) l := by
  induction t with
  | nil => intro cur l; simp
  | cons c t ih =>
    intro cur l
    rw [List.all_cons, Bool.and_eq_true] at h
    obtain ⟨hc, ht⟩ := h
    obtain ⟨h1, h2, h3, h4⟩ := ordinaryChar_spec c hc
    show shlexAux .norm (some cur) (c :: (t ++ l)) = _
    simp only [shlexAux, h1, h2, h3, h4, Bool.false_eq_true, if_false,
      Option.getD_some]
    rw [ih ht (cur ++ [c]) l]
    simp

theorem shlexAux_start (c : Char) (hc : ordinaryChar c = true)
    (l : List Char) :
    shlexAux .norm none (c :: l) = shlexAux .norm (some [c]) l := by
  obtain ⟨h1, h2, h3, h4⟩ := ordinaryChar_spec c hc
  simp only [shlexAux, h1, h2, h3, h4, Bool.false_eq_true, if_false,
    Option.getD_none]
  simp

theorem shlexAux_ws (t l : List Char) :
    shlexAux .norm (some t) (' ' :: l) =
      (shlexAux .norm none l).map (String.mk t :: ·) := by
  simp [shlexAux, isShlexWS]

theorem shlexAux_token (w : String) (hw : plainTok w = true) (l : List Char) :
    shlexAux .norm none (w.toList ++ l) = shlexAux .norm (some w.toList) l := by
  unfold plainTok at hw
  rw [Bool.and_eq_true] at hw
  obtain ⟨hne, hall⟩ := hw
  cases hcs : w.toList with
  | nil => rw [hcs] at hne; simp at hne
  | cons c t =>
    rw [hcs] at hall
    rw [List.all_cons, Bool.and_eq_true] at hall
    show shlexAux .norm none (c :: (t ++ l)) = _
    rw [shlexAux_start c hall.1, shlexAux_consume t hall.2 [c] l]
    rfl

theorem shlexSplit_plain (ws : List String)
    (h : ∀ w ∈ ws, plainTok w = true) :
    shlexSplit (strJoin " " ws) = some ws := by
  induction ws with
  | nil => rfl
  | cons w rest ih =>
    have hw : plainTok w = true := h w (by simp)
    cases rest with
    | nil =>
      show shlexAux .norm none w.toList = some [w]
      have hv := shlexAux_token w hw []
      rw [List.append_nil] at hv
      rw [hv]
      show some [String.mk w.toList] = some [w]
      rw [string_mk_toList]
    | cons w₂ rest₂ =>
      have hrest : ∀ x ∈ w₂ :: rest₂, plainTok x = true := by
        intro x hx
        exact h x (List.mem_cons_of_mem w hx)
      have hr := ih hrest
      show shlexAux .norm none
        ((w ++ " " ++ strJoin " " (w₂ :: rest₂)).toList) = _
      rw [string_toList_append, string_toList_append]
      have hsp : (" ").toList = [' '] := rfl
      rw [hsp, List.append_assoc]
      show shlexAux .norm none
        (w.toList ++ (' ' :: (strJoin " " (w₂ :: rest₂)).toList)) = _
      rw [shlexAux_token w hw, shlexAux_ws]
      unfold shlexSplit at hr
      rw [hr, string_mk_toList]
      rfl

/-! ## Cache lemmas -/

theorem cacheLookup_int_none (l : List (PyKey × RcExcClass))
    (h : l.all
      (fun p => match p.1 with | .strKey _ => true | .intKey _ => false) = true)
    (rc : Int) :
    cacheLookup (.intKey rc) l = none := by
  induction l with
  | nil => rfl
  | cons p rest ih =>
    rw [List.all_cons, Bool.and_eq_true] at h
    obtain ⟨hp, hrest⟩ := h
    have hne : ¬(p.1 = PyKey.intKey rc) := by
      cases hk : p.1 with
      | intKey n => rw [hk] at hp; simp at hp
      | strKey s => exact fun hh => PyKey.noConfusion hh
    show (if p.1 = PyKey.intKey rc then some p.2
      else cacheLookup (.intKey rc) rest) = none
    rw [if_neg hne]
    exact ih hrest

/-- On any string-keyed cache state (all reachable states are), the
`int`-keyed lookup in `get_rc_exc` misses, so a fresh class is created. -/
theorem get_rc_exc_fresh (st : RcState) (h : strKeyedOnly st = true)
    (rc : Int) :
    get_rc_exc rc st =
      (⟨st.nextSerial, rc⟩,
       ⟨st.cache ++
          [(.strKey ("ErrorReturnCode_" ++ toString rc), ⟨st.nextSerial, rc⟩)],
        st.nextSerial + 1⟩) := by
  unfold strKeyedOnly at h
  unfold get_rc_exc
  rw [cacheLookup_int_none st.cache h rc]

/-! ## Claim C1 — exit classification in `RunningCommand.__init__` -/

/-- C1 counterexample: the claim says *any nonzero* exit code raises, but
the source only checks `rc > 0`; a signal-terminated process reports the
negative code `-9`, which is nonzero yet raises nothing. -/
theorem exit_check_ignores_negative_codes :
    ((-9 : Int) ≠ 0) ∧
      init_exit_check rcState0 (-9) "cmd" "out" "err" = .ret := by
  exact ⟨by decide, rfl⟩

/-- C1 (amended): for a completed non-background, non-with invocation,
exit code 0 never raises, and any exit code N > 0 raises a classified
failure `ErrorReturnCode_N` whose code equals N, carrying the command
line and both streams.  (Negative, signal-termination codes raise
nothing.) -/
theorem exit_classification_positive (st : RcState)
    (h : strKeyedOnly st = true) (rc : Int) (cmd out err : String) :
    init_exit_check st 0 cmd out err = .ret ∧
    (0 < rc →
      init_exit_check st rc cmd out err =
        .raised ⟨st.nextSerial, rc⟩ ⟨cmd, out, err⟩ ∧
      (⟨st.nextSerial, rc⟩ : RcExcClass).excRc = rc) := by
  constructor
  · rfl
  · intro hrc
    refine ⟨?_, rfl⟩
    rw [init_exit_check, if_pos hrc]
    unfold raiseRcExc
    rw [get_rc_exc_fresh st h rc]
    rfl

/-- C1 witness: the amended theorem applied at exit code 2 in the initial
module state. -/
theorem exit_classification_positive_witness :
    init_exit_check rcState0 2 "c" "o" "e" =
      .raised ⟨0, 2⟩ ⟨"c", "o", "e"⟩ :=
  ((exit_classification_positive rcState0 (by decide) 2 "c" "o" "e").2
    (by decide)).1

/-! ## Claim C2 — failure identity per exit code -/

/-- C2: `get_rc_exc` inserts into `rc_exc_cache` under the *name* string
but looks up under the *int* code, so the cache never hits: two lookups
for exit code 1 return two distinct class objects, and an `except`
clause on the first class does not catch an instance of the second. -/
theorem get_rc_exc_returns_fresh_class_each_call :
    (get_rc_exc 1 (get_rc_exc 1 rcState0).2).1 ≠ (get_rc_exc 1 rcState0).1 ∧
    catchesExc (.dyn (get_rc_exc 1 rcState0).1)
        (.dyn (get_rc_exc 1 (get_rc_exc 1 rcState0).2).1) = false := by
  decide

/-! ## Claim C10 — every dynamic failure class extends `ErrorReturnCode` -/

/-- C10: any classified failure raised by the exit check is an instance
of a dynamically created class whose base is `ErrorReturnCode`, so one
handler catching `ErrorReturnCode` catches it whatever the code value. -/
theorem dynamic_failure_class_caught_by_base (st : RcState) (rc : Int)
    (cmd out err : String) (cls : RcExcClass) (e : ExcData)
    (_h : init_exit_check st rc cmd out err = .raised cls e) :
    isSubclass (.dyn cls) .errorReturnCodeCls = true ∧
    catchesExc .errorReturnCodeCls (.dyn cls) = true :=
  ⟨rfl, rfl⟩

/-- C10 witness: the failure raised for exit code 2 from the initial
state is caught by a handler on the base class. -/
theorem dynamic_failure_class_caught_by_base_witness :
    isSubclass (.dyn ⟨0, 2⟩) .errorReturnCodeCls = true ∧
    catchesExc .errorReturnCodeCls (.dyn ⟨0, 2⟩) = true :=
  dynamic_failure_class_caught_by_base rcState0 2 "c" "o" "e" ⟨0, 2⟩
    ⟨"c", "o", "e"⟩ (by decide)

/-! ## Claim C4 — `RunningCommand.wait` on nonzero exit -/

/-- C4: for a background invocation without collectors, `wait` on a
nonzero exit constructs the failure with only `(self.stdout,
self.stderr)` — two arguments for the three-parameter
`ErrorReturnCode.__init__` — so Python raises `TypeError` instead of a
classified failure carrying the command line and both streams. -/
theorem wait_nonzero_exit_raises_type_error :
    wait_exit_check rcState0 1 "out" "err" = .typeError ∧
    init_exit_check rcState0 1 "cmd" "out" "err" =
      .raised ⟨0, 1⟩ ⟨"cmd", "out", "err"⟩ := by
  decide

/-! ## Claim C3 — the "last collector to finish" exit-check rule -/

/-- C3 counterexample: a schedule in which both collector threads
evaluate `is_last_thread()` before either has terminated — each sees the
other still alive — performs the exit-status check zero times, not
exactly once, even though thread A does finish first. -/
theorem collector_exit_check_can_be_skipped :
    [CAct.lastTest .tA, CAct.lastTest .tB,
       CAct.terminate .tA, CAct.terminate .tB] ∈ validScheds ∧
    (collectorRun initCollector
        [CAct.lastTest .tA, CAct.lastTest .tB,
         CAct.terminate .tA, CAct.terminate .tB]).exitChecks = 0 := by
  decide

/-- C3 (amended): over all interleavings of the two collector threads'
final phases, the exit-status check runs *at most* once, and it runs
exactly once precisely in the schedules where one thread has terminated
before the other evaluates its `is_last_thread` probe; in the remaining
(racy) schedules it runs zero times. -/
theorem collector_exit_check_at_most_once :
    ∀ l ∈ validScheds,
      (collectorRun initCollector l).exitChecks ≤ 1 ∧
      ((collectorRun initCollector l).exitChecks = 1 ↔ dieBeforeOtherTest l) := by
  decide

/-- C3 witness: the fully sequential schedule (A finishes, then B runs)
performs the check exactly once. -/
theorem collector_exit_check_at_most_once_witness :
    (collectorRun initCollector
        [CAct.lastTest .tA, CAct.terminate .tA,
         CAct.lastTest .tB, CAct.terminate .tB]).exitChecks ≤ 1 ∧
    ((collectorRun initCollector
        [CAct.lastTest .tA, CAct.terminate .tA,
         CAct.lastTest .tB, CAct.terminate .tB]).exitChecks = 1 ↔
      dieBeforeOtherTest
        [CAct.lastTest .tA, CAct.terminate .tA,
         CAct.lastTest .tB, CAct.terminate .tB]) :=
  collector_exit_check_at_most_once
    [CAct.lastTest .tA, CAct.terminate .tA,
     CAct.lastTest .tB, CAct.terminate .tB] (by decide)

/-! ## Claim C5 — baking layers onto the parent? -/

/-- C5 counterexample: baking `"a"` and then baking `"b"` on the result
yields baked args `["b"]`, not the layered `["a", "b"]` the claim
requires — `bake` *replaces* the parent's baked arguments. -/
theorem bake_discards_parent_baked_args :
    (((Command.fresh "/bin/t").bake [.scalar (.vstr "a")] []).bind
        (fun p => p.bake [.scalar (.vstr "b")] [])).map Command.baked_args
      = some ["b"] ∧
    (some ["b"] : Option (List String)) ≠ some ["a", "b"] := by
  exact ⟨rfl, by decide⟩

/-- C5 (amended): `bake` builds the new command spec from the parent's
path alone — the new baked args and mode overrides are exactly those
compiled from the bake call's own arguments, replacing (not layering
onto) the parent's, and the result keeps the parent's path.  The parent
object itself is never written by `bake` (the method only assigns to the
fresh child), so it is unchanged. -/
theorem bake_builds_from_path_only (p : Command) (args : List PosArg)
    (kwargs : List (String × PyVal)) :
    p.bake args kwargs = (Command.fresh p.path).bake args kwargs ∧
    ((p.bake args kwargs).getD (Command.fresh p.path)).path = p.path := by
  refine ⟨rfl, ?_⟩
  cases hc : compile_args args (extract_call_args kwargs []).2 <;>
    simp [Command.bake, Command.fresh, hc]

/-! ## Claim C8 — prefix-stack nesting via `with command:` blocks -/

/-- C8: entering context C1 then C2 (each `Command.__enter__` pushes the
command's own `[path]`), an invocation in the nested scope has argv
beginning with C1's pushed args, then C2's, then its own path; after
both `__exit__` pops the stack is empty again and a subsequent
invocation carries no prepended args. -/
theorem nested_with_contexts_argv (p1 p2 px py : String) :
    Command.call
        (Command.enter (Command.enter [] (Command.fresh p1)) (Command.fresh p2))
        (Command.fresh px) [] [] = some [p1, p2, px] ∧
    Command.exitCtx (Command.exitCtx
        (Command.enter (Command.enter [] (Command.fresh p1))
          (Command.fresh p2))) = [] ∧
    Command.call [] (Command.fresh py) [] [] = some [py] :=
  ⟨rfl, rfl, rfl⟩

/-! ## Claim C9 — string conversion with no process handle -/

/-- C9: with no process handle (`_with` placeholder invocations) the
body of `__unicode__` ends without returning, so Python yields `None` —
not the empty string the claim requires.  (With a process handle the
first component of `unicodeRender` does render the decoded stdout.) -/
theorem unicode_render_no_process_is_none :
    unicodeRender false "" = none ∧ (none : Option String) ≠ some "" ∧
    unicodeRender true "hi" = some "hi" := by
  refine ⟨rfl, by decide, rfl⟩

/-! ## Claim C6 — flag synthesis in `_compile_args` -/

/-- A Python keyword-argument name is made of identifier characters;
those are never special to the splitter. -/
theorem alpha_ordinary (k : Char) (h : k.isAlpha = true ∨ k = '_') :
    ordinaryChar k = true := by
  rcases h with h | rfl
  · have hne : ∀ x : Char, Char.isAlpha x = false → (k == x) = false := by
      intro x hx
      cases hkx : k == x with
      | false => rfl
      | true =>
        have hkeq : k = x := eq_of_beq hkx
        rw [hkeq, hx] at h
        exact absurd h (by simp)
    unfold ordinaryChar isShlexWS
    rw [hne ' ' (by decide), hne '\t' (by decide), hne '\r' (by decide),
      hne '\n' (by decide), hne '\'' (by decide), hne '"' (by decide),
      hne '\\' (by decide)]
    rfl
  · decide

/-- C6: keyword-argument compilation — a single-character identifier key
with value `True` compiles to the short flag `-k`; the multi-character
key `foo_bar` with `True` compiles to `--foo-bar` (underscores become
hyphens); `foo_bar="x"` compiles to `--foo-bar=x` (the `repr` quotes
are consumed by the shell-word resplit). -/
theorem compile_args_flag_synthesis :
    (∀ k : Char, k.isAlpha = true ∨ k = '_' →
      compile_args [] [(String.mk [k], .vbool true)] =
        some [String.mk ['-', k]]) ∧
    compile_args [] [("foo_bar", .vbool true)] = some ["--foo-bar"] ∧
    compile_args [] [("foo_bar", .vstr "x")] = some ["--foo-bar=x"] := by
  refine ⟨?_, by decide, by decide⟩
  intro k hk
  have hord := alpha_ordinary k hk
  have hp : plainTok ("-" ++ String.mk [k]) = true := by
    show (!(['-', k].isEmpty) && ['-', k].all ordinaryChar) = true
    simp [hord, show ordinaryChar '-' = true from by decide]
  show shlexSplit (strJoin " " ["-" ++ String.mk [k]]) =
    some ["-" ++ String.mk [k]]
  exact shlexSplit_plain ["-" ++ String.mk [k]] (by
    intro w hw
    rcases List.mem_singleton.mp hw with rfl
    exact hp)

/-- C6 witness: the short-flag rule applied at the concrete key `v`. -/
theorem compile_args_flag_synthesis_witness :
    compile_args [] [(String.mk ['v'], .vbool true)] =
      some [String.mk ['-', 'v']] :=
  compile_args_flag_synthesis.1 'v' (Or.inl (by decide))

/-! ## Claim C7 — bake-then-call argv round-trip -/

/-- C7: baking a command with plain-word args `a`, `b` and calling the
baked command with `c` yields an invocation whose argv is exactly the
active prepend stack, the resolved path, then `a`, `b`, `c`. -/
theorem bake_then_call_argv (stack : List (List String)) (path a b c : String)
    (ha : plainTok a = true) (hb : plainTok b = true)
    (hc : plainTok c = true) :
    ((Command.fresh path).bake [.scalar (.vstr a), .scalar (.vstr b)] []).bind
        (fun baked => Command.call stack baked [.scalar (.vstr c)] [])
      = some (stack.flatten ++ path :: [a, b, c]) := by
  have hab : shlexSplit (strJoin " " [a, b]) = some [a, b] :=
    shlexSplit_plain [a, b] (by
      intro w hw
      rcases List.mem_cons.mp hw with rfl | hw'
      · exact ha
      · rcases List.mem_singleton.mp hw' with rfl
        exact hb)
  have hcc : shlexSplit (strJoin " " [c]) = some [c] :=
    shlexSplit_plain [c] (by
      intro w hw
      rcases List.mem_singleton.mp hw with rfl
      exact hc)
  have hbk : (Command.fresh path).bake
      [.scalar (.vstr a), .scalar (.vstr b)] [] =
      some ⟨path, true, [a, b], call_arg_defaults⟩ := by
    show (shlexSplit (strJoin " " [a, b])).map _ = _
    rw [hab]
    rfl
  rw [hbk, Option.some_bind]
  show (shlexSplit (strJoin " " [c])).map
      (fun pr => (stack.flatten ++ [path]) ++ [a, b] ++ pr) = _
  rw [hcc]
  simp

/-- C7 witness: `sudo` on the prepend stack, `/bin/ls` baked with `-l`
`-a`, then called with `/tmp`. -/
theorem bake_then_call_argv_witness :
    ((Command.fresh "/bin/ls").bake
        [.scalar (.vstr "-l"), .scalar (.vstr "-a")] []).bind
      (fun baked =>
        Command.call [["sudo"]] baked [.scalar (.vstr "/tmp")] []) =
      some ["sudo", "/bin/ls", "-l", "-a", "/tmp"] := by
  have h := bake_then_call_argv [["sudo"]] "/bin/ls" "-l" "-a" "/tmp"
    (by decide) (by decide) (by decide)
  simpa using h

end Pbs
